import Mathlib

/-!
Shallow embedding of `pkg.ExecuteCommand` from `src/pkg/kube.go` of
wccsama/kubectl-exec-go, together with a model of the JSON
marshal/unmarshal semantics of Go's `encoding/json` used on the
`Response` struct, and proofs of the behavioural claims about it.

The Kubernetes cluster (pod fetch, SPDY executor construction, exec
stream output) is an external collaborator; it is modelled by the
`Cluster` structure, whose fields stand for the results those external
calls would produce.  `executeCommand` records every network call it
makes in a trace, and returns the final state of the caller-owned
`Option` struct, because the Go function receives `opt *Option` (a
pointer) and assigns through it.
-/

namespace pkg

/-- Go struct `Option` from `src/pkg/kube.go` (named `Opt` here to avoid
shadowing Lean's `Option`): `{NameSpace, PodName, Container string;
Commands []string}`. -/
structure Opt where
  nameSpace : String
  podName : String
  container : String
  commands : List String
deriving Repr, DecidableEq

/-- A JSON document, as the value tree Go's `encoding/json` works with.
Numbers are modelled as integers (the envelope's only numeric field is
the `int32` code). -/
inductive Json where
  | null : Json
  | bool (b : Bool) : Json
  | num (n : Int) : Json
  | str (s : String) : Json
  | arr (elems : List Json) : Json
  | obj (fields : List (String × Json)) : Json
deriving Repr

/-- Go struct `Response` from `src/pkg/kube.go`:
`{Code int32; Success bool; Err string; Result interface{}}` with JSON
tags `code`, `success`, `error,omitempty`, `result,omitempty`.  The
`Result interface{}` field holds an arbitrary decoded JSON value, with
`none` standing for the nil interface. -/
structure Response where
  code : Int
  success : Bool
  err : String
  result : Option Json
deriving Repr

/-- `api.PodSucceeded`: the terminal phase of a pod that completed. -/
def PodSucceeded : String := "Succeeded"

/-- `api.PodFailed`: the terminal phase of a pod that failed. -/
def PodFailed : String := "Failed"

/-- A container entry of a pod spec; only the name is consulted. -/
structure Container where
  name : String
deriving Repr, DecidableEq

/-- `pod.Spec`: the ordered list of declared containers. -/
structure PodSpec where
  containers : List Container
deriving Repr, DecidableEq

/-- `pod.Status`: the lifecycle phase. -/
structure PodStatus where
  phase : String
deriving Repr, DecidableEq

/-- A fetched pod: the fields of `api.Pod` that `ExecuteCommand` reads. -/
structure Pod where
  spec : PodSpec
  status : PodStatus
deriving Repr, DecidableEq

/-- `api.PodExecOptions` as filled in by `ExecuteCommand`: the query
parameters of the exec sub-resource request. -/
structure PodExecOptions where
  container : String
  command : List String
  stdin : Bool
  stdout : Bool
  stderr : Bool
  tty : Bool
deriving Repr, DecidableEq

/-- A network call made against the cluster control plane: either the
read of a pod by namespace and name, or the POST to the pod's exec
sub-resource (the upgraded stream). -/
inductive Call where
  | getPod (nameSpace podName : String) : Call
  | exec (nameSpace podName : String) (opts : PodExecOptions) : Call
deriving Repr, DecidableEq

/-- The namespace a network call addresses. -/
def Call.nameSpace : Call → String
  | .getPod ns _ => ns
  | .exec ns _ _ => ns

/-- The buffer of bytes collected from the exec stream, as seen by the
decoder: either bytes that parse as a JSON document, or bytes that are
not valid JSON at all. -/
inductive Buffer where
  | json (doc : Json) : Buffer
  | malformed (s : String) : Buffer
deriving Repr

mutual

/-- Render a JSON document back to its textual form (used for the raw
text of a buffer that holds a JSON document). -/
def renderJson : Json → String
  | .null => "null"
  | .bool true => "true"
  | .bool false => "false"
  | .num n => toString n
  | .str s => "\x22" ++ s ++ "\x22"
  | .arr elems => "[" ++ renderJsonList elems ++ "]"
  | .obj fields => "\x7b" ++ renderJsonFields fields ++ "\x7d"

/-- Render the comma-separated elements of a JSON array. -/
def renderJsonList : List Json → String
  | [] => ""
  | [j] => renderJson j
  | j :: rest => renderJson j ++ "," ++ renderJsonList rest

/-- Render the comma-separated members of a JSON object. -/
def renderJsonFields : List (String × Json) → String
  | [] => ""
  | [(k, v)] => "\x22" ++ k ++ "\x22:" ++ renderJson v
  | (k, v) :: rest => "\x22" ++ k ++ "\x22:" ++ renderJson v ++ "," ++ renderJsonFields rest

end

/-- The raw text of a collected buffer (`string(buffer)` in the Go
code). -/
def Buffer.raw : Buffer → String
  | .json doc => renderJson doc
  | .malformed s => s

/-- The value bound to key `k` in a JSON object, Go style: when a key is
duplicated, the last binding wins. -/
def lookupField (fields : List (String × Json)) (k : String) : Option Json :=
  ((fields.filter fun f => f.1 = k).map fun f => f.2).getLast?

/-- `json.Marshal` of a `Response` value, at the level of the JSON value
tree: the `code` and `success` members are always present, `error` and
`result` are omitted when empty (`omitempty` on an empty string, and on
a nil interface). -/
def marshalResponse (r : Response) : Json :=
  .obj ([("code", .num r.code), ("success", .bool r.success)]
    ++ (if r.err = "" then [] else [("error", .str r.err)])
    ++ (match r.result with
        | none => []
        | some v => [("result", v)]))

/-- Decoding of the `code` member into the `Code int32` field: a missing
member or a JSON `null` leaves the zero value; a number must fit in
`int32`; anything else is a type error. -/
def decodeCode : Option Json → Except String Int
  | none => .ok 0
  | some .null => .ok 0
  | some (.num n) =>
    if n < -(2 ^ 31) ∨ 2 ^ 31 ≤ n then
      .error "json: cannot unmarshal number into Go struct field Response.code of type int32"
    else
      .ok n
  | some _ => .error "json: cannot unmarshal value into Go struct field Response.code of type int32"

/-- Decoding of the `success` member into the `Success bool` field. -/
def decodeSuccess : Option Json → Except String Bool
  | none => .ok false
  | some .null => .ok false
  | some (.bool b) => .ok b
  | some _ => .error "json: cannot unmarshal value into Go struct field Response.success of type bool"

/-- Decoding of the `error` member into the `Err string` field. -/
def decodeErr : Option Json → Except String String
  | none => .ok ""
  | some .null => .ok ""
  | some (.str s) => .ok s
  | some _ => .error "json: cannot unmarshal value into Go struct field Response.error of type string"

/-- Decoding of the `result` member into the `Result interface{}`
field: any JSON value is accepted; a missing member or a JSON `null`
leaves the nil interface. -/
def decodeResult : Option Json → Option Json
  | none => none
  | some .null => none
  | some v => some v

/-- `json.Unmarshal` of a JSON document into the `Response` struct: the
document must be an object; each tagged member must have the matching
type; a missing member leaves the zero value; unknown members are
ignored. -/
def decodeResponse (j : Json) : Except String Response :=
  match j with
  | .obj fields => do
    let code ← decodeCode (lookupField fields "code")
    let success ← decodeSuccess (lookupField fields "success")
    let err ← decodeErr (lookupField fields "error")
    .ok ⟨code, success, err, decodeResult (lookupField fields "result")⟩
  | _ => .error "json: cannot unmarshal value into Go value of type pkg.Response"

/-- `json.Unmarshal(buffer, &resp)`: bytes that are not valid JSON fail
with a syntax error; bytes that parse as a JSON document are decoded
into the struct. -/
def unmarshal : Buffer → Except String Response
  | .json doc => decodeResponse doc
  | .malformed _ => .error "invalid character looking for beginning of value"

/-- The cluster and client-go collaborators, as the results their calls
would produce: `getPod ns name` is what
`clientset.CoreV1().Pods(ns).Get(ctx, name, ...)` returns (an error is
its `err.Error()` string); `newSPDYExecutorErr` is the error from
`remotecommand.NewSPDYExecutor`, if any; `streamOutput ns name opts` is
the buffer accumulated from the exec stream of the pod's exec
sub-resource (an error is what the pipe read would report). -/
structure Cluster where
  getPod : String → String → Except String Pod
  newSPDYExecutorErr : Option String
  streamOutput : String → String → PodExecOptions → Except String Buffer

/-- How `ExecuteCommand` terminates: with a `*Response` value, or by a
runtime panic that propagates to the caller. -/
inductive ExecOutcome where
  | ok (resp : Response) : ExecOutcome
  | panicked (msg : String) : ExecOutcome
deriving Repr

/-- The observable behaviour of one `ExecuteCommand` call: its outcome,
the network calls it made in order, and the final state of the
caller-owned `Option` struct (reached through the `opt *Option`
pointer). -/
structure ExecResult where
  outcome : ExecOutcome
  calls : List Call
  optAfter : Opt
deriving Repr

/-- The tail of `ExecuteCommand` after container resolution: build the
exec sub-resource request with the fixed stream flags (stdin=false,
stdout=true, stderr=true, tty=false), construct the SPDY executor, open
the stream, collect the output and decode it.  `calls` is the trace
accumulated so far; `opt` is the (possibly defaulted) option the Go
code has mutated in place by this point. -/
def execStreamAndDecode (c : Cluster) (opt : Opt) (calls : List Call) : ExecResult :=
  let opts : PodExecOptions := ⟨opt.container, opt.commands, false, true, true, false⟩
  match c.newSPDYExecutorErr with
  | some e =>
    let resp : Response := ⟨-1, false, s!"error when NewSPDYExecutor, err: {e}", none⟩
    ⟨.ok resp, calls, opt⟩
  | none =>
    let calls := calls ++ [Call.exec opt.nameSpace opt.podName opts]
    match c.streamOutput opt.nameSpace opt.podName opts with
    | .error e =>
      let resp : Response := ⟨-1, false, s!"read resp got error: {e}", none⟩
      ⟨.ok resp, calls, opt⟩
    | .ok buffer =>
      match unmarshal buffer with
      | .error e =>
        let resp : Response := ⟨-1, false, s!"unmarsh json {buffer.raw} got error: {e}", none⟩
        ⟨.ok resp, calls, opt⟩
      | .ok resp =>
        ⟨.ok resp, calls, opt⟩

/-- The middle of `ExecuteCommand` once the pod has been fetched
(`src/pkg/kube.go` lines 113 onward): reject terminal phases; default
an unset container to `pod.Spec.Containers[0]` (which panics when the
list is empty) or validate a named container against the pod's
containers by exact string equality; then stream and decode.  `opt` is
the option after the namespace defaulting the Go code has applied in
place by this point. -/
def executeCommandWithPod (c : Cluster) (opt : Opt) (pod : Pod) (calls : List Call) : ExecResult :=
  if pod.status.phase = PodSucceeded ∨ pod.status.phase = PodFailed then
    let msg := s!"cannot exec into a container in a completed pod; current phase is {pod.status.phase}"
    let resp : Response := ⟨-1, false, msg, none⟩
    ⟨.ok resp, calls, opt⟩
  else if opt.container = "" then
    match pod.spec.containers with
    | [] =>
      ⟨.panicked "runtime error: index out of range [0] with length 0", calls, opt⟩
    | c0 :: _ =>
      execStreamAndDecode c { opt with container := c0.name } calls
  else if pod.spec.containers.any fun ct => ct.name = opt.container then
    execStreamAndDecode c opt calls
  else
    let resp : Response := ⟨-1, false, s!"container name: {opt.container} not found in pod {opt.podName}", none⟩
    ⟨.ok resp, calls, opt⟩

/-- The namespace defaulting of `src/pkg/kube.go` lines 94-96: an empty
namespace becomes "default". -/
def effNameSpace (opt : Opt) : String :=
  if opt.nameSpace = "" then "default" else opt.nameSpace

/-- `(*KubernetesClient).ExecuteCommand(opt, isDestroy)` from
`src/pkg/kube.go`: reject an empty pod name before any network call;
default an empty namespace to "default" (through the caller's
pointer); fetch the pod, treating an error equal to the exact
`pods "NAME" not found` message as success when `isDestroy` is set and
as failure otherwise; then continue with `executeCommandWithPod`. -/
def executeCommand (c : Cluster) (opt : Opt) (isDestroy : Bool) : ExecResult :=
  if opt.podName = "" then
    let resp : Response := ⟨-1, false, "can not execute command with empty pod name", none⟩
    ⟨.ok resp, [], opt⟩
  else
    let opt := { opt with nameSpace := effNameSpace opt }
    let calls := [Call.getPod opt.nameSpace opt.podName]
    match c.getPod opt.nameSpace opt.podName with
    | .error e =>
      if isDestroy ∧ e = s!"pods \x22{opt.podName}\x22 not found" then
        let resp : Response := ⟨1, true, "", none⟩
        ⟨.ok resp, calls, opt⟩
      else
        let resp : Response := ⟨-1, false, e, none⟩
        ⟨.ok resp, calls, opt⟩
    | .ok pod => executeCommandWithPod c opt pod calls

/-- A concrete pod in phase Running with two containers, for
instantiating the theorems. -/
def podRunning : Pod := ⟨⟨[⟨"main"⟩, ⟨"side"⟩]⟩, ⟨"Running"⟩⟩

/-- A concrete pod in the terminal phase Succeeded. -/
def podSucceededW : Pod := ⟨⟨[⟨"main"⟩]⟩, ⟨"Succeeded"⟩⟩

/-- A concrete pod in phase Running that declares no containers. -/
def podNoContainers : Pod := ⟨⟨[]⟩, ⟨"Running"⟩⟩

/-- A cluster whose pod fetch always fails with an opaque error. -/
def clusterDown : Cluster :=
  ⟨fun _ _ => .error "boom", none, fun _ _ _ => .ok (.malformed "hello")⟩

/-- A cluster whose pod fetch reports exactly the not-found message. -/
def clusterAbsent : Cluster :=
  ⟨fun _ name => .error s!"pods \x22{name}\x22 not found", none, fun _ _ _ => .ok (.malformed "hello")⟩

/-- A cluster holding `podRunning`, whose exec stream yields bytes that
are not valid JSON. -/
def clusterUp : Cluster :=
  ⟨fun _ _ => .ok podRunning, none, fun _ _ _ => .ok (.malformed "hello")⟩

/-- A cluster holding `podSucceededW`. -/
def clusterCompleted : Cluster :=
  ⟨fun _ _ => .ok podSucceededW, none, fun _ _ _ => .ok (.malformed "hello")⟩

/-- A cluster holding `podNoContainers`. -/
def clusterNoContainers : Cluster :=
  ⟨fun _ _ => .ok podNoContainers, none, fun _ _ _ => .ok (.malformed "hello")⟩

/-- A concrete response envelope used for the round-trip instantiation. -/
def respW : Response := ⟨7, true, "ok", some (.str "out")⟩

/-- A concrete response envelope whose result field holds JSON null, as
Go's Marshal produces from a typed-nil Result value (a non-nil
interface holding a nil pointer defeats omitempty). -/
def respNullW : Response := ⟨7, true, "ok", some Json.null⟩

/-- A cluster holding `podRunning`, whose exec stream yields exactly the
serialized `respW` envelope. -/
def clusterEnvelope : Cluster :=
  ⟨fun _ _ => .ok podRunning, none, fun _ _ _ => .ok (.json (marshalResponse respW))⟩

end pkg

namespace pkg

theorem decodeCode_num (n : Int) (hlo : -(2 ^ 31) ≤ n) (hhi : n < 2 ^ 31) :
    decodeCode (some (.num n)) = .ok n := by
  simp only [decodeCode]
  rw [if_neg (by omega)]

theorem decodeResponse_marshalResponse (r : Response)
    (hlo : -(2 ^ 31) ≤ r.code) (hhi : r.code < 2 ^ 31)
    (hres : r.result ≠ some Json.null) :
    decodeResponse (marshalResponse r) = .ok r := by
  obtain ⟨code, success, err, result⟩ := r
  dsimp only at hlo hhi hres
  have h1 : decodeCode (some (.num code)) = .ok code := decodeCode_num code hlo hhi
  by_cases herr : err = "" <;> cases result with
  | none =>
    simp [marshalResponse, decodeResponse, lookupField, herr, h1,
      decodeSuccess, decodeErr, decodeResult, List.filter, Bind.bind, Except.bind]
  | some v =>
    cases v <;>
    simp_all [marshalResponse, decodeResponse, lookupField, h1,
      decodeSuccess, decodeErr, decodeResult, List.filter, Bind.bind, Except.bind]

theorem execStreamAndDecode_outcome_ok (c : Cluster) (o : Opt) (cs : List Call) :
    ∃ r, (execStreamAndDecode c o cs).outcome = .ok r := by
  rcases h1 : c.newSPDYExecutorErr with _ | e
  · rcases h2 : c.streamOutput o.nameSpace o.podName ⟨o.container, o.commands, false, true, true, false⟩
      with e | buf
    · refine ⟨⟨-1, false, s!"read resp got error: {e}", none⟩, ?_⟩
      simp [execStreamAndDecode, h1, h2]
    · rcases h3 : unmarshal buf with e | r
      · refine ⟨⟨-1, false, s!"unmarsh json {buf.raw} got error: {e}", none⟩, ?_⟩
        simp [execStreamAndDecode, h1, h2, h3]
      · refine ⟨r, ?_⟩
        simp [execStreamAndDecode, h1, h2, h3]
  · refine ⟨⟨-1, false, s!"error when NewSPDYExecutor, err: {e}", none⟩, ?_⟩
    simp [execStreamAndDecode, h1]

theorem execStreamAndDecode_optAfter (c : Cluster) (o : Opt) (cs : List Call) :
    (execStreamAndDecode c o cs).optAfter = o := by
  rcases h1 : c.newSPDYExecutorErr with _ | e
  · rcases h2 : c.streamOutput o.nameSpace o.podName ⟨o.container, o.commands, false, true, true, false⟩
      with e | buf
    · simp [execStreamAndDecode, h1, h2]
    · rcases h3 : unmarshal buf with e | r <;>
        simp [execStreamAndDecode, h1, h2, h3]
  · simp [execStreamAndDecode, h1]

theorem execStreamAndDecode_calls (c : Cluster) (o : Opt) (cs : List Call) :
    (execStreamAndDecode c o cs).calls = cs ∨
    (execStreamAndDecode c o cs).calls =
      cs ++ [Call.exec o.nameSpace o.podName ⟨o.container, o.commands, false, true, true, false⟩] := by
  rcases h1 : c.newSPDYExecutorErr with _ | e
  · rcases h2 : c.streamOutput o.nameSpace o.podName ⟨o.container, o.commands, false, true, true, false⟩
      with e | buf
    · exact .inr (by simp [execStreamAndDecode, h1, h2])
    · rcases h3 : unmarshal buf with e | r
      · exact .inr (by simp [execStreamAndDecode, h1, h2, h3])
      · exact .inr (by simp [execStreamAndDecode, h1, h2, h3])
  · exact .inl (by simp [execStreamAndDecode, h1])

theorem executeCommandWithPod_ok (c : Cluster) (o : Opt) (pod : Pod) (cs : List Call)
    (h : o.container ≠ "" ∨ pod.spec.containers ≠ []) :
    ∃ r, (executeCommandWithPod c o pod cs).outcome = .ok r := by
  by_cases hph : pod.status.phase = PodSucceeded ∨ pod.status.phase = PodFailed
  · refine ⟨⟨-1, false,
      s!"cannot exec into a container in a completed pod; current phase is {pod.status.phase}",
      none⟩, ?_⟩
    simp [executeCommandWithPod, hph]
  · by_cases hc : o.container = ""
    · cases hcont : pod.spec.containers with
      | nil =>
        rcases h with h | h
        · exact absurd hc h
        · exact absurd hcont h
      | cons c0 rest =>
        obtain ⟨r, hr⟩ := execStreamAndDecode_outcome_ok c { o with container := c0.name } cs
        refine ⟨r, ?_⟩
        simp only [executeCommandWithPod, hph, hc, hcont]
        simpa using hr
    · by_cases hany : (pod.spec.containers.any fun ct => ct.name = o.container) = true
      · obtain ⟨r, hr⟩ := execStreamAndDecode_outcome_ok c o cs
        refine ⟨r, ?_⟩
        simp only [executeCommandWithPod, hph, hc, hany]
        simpa using hr
      · refine ⟨⟨-1, false, s!"container name: {o.container} not found in pod {o.podName}", none⟩, ?_⟩
        simp [executeCommandWithPod, hph, hc, hany]

theorem executeCommandWithPod_calls (c : Cluster) (o : Opt) (pod : Pod) (cs : List Call) :
    (executeCommandWithPod c o pod cs).calls = cs ∨
    ∃ opts, (executeCommandWithPod c o pod cs).calls = cs ++ [Call.exec o.nameSpace o.podName opts] := by
  by_cases hph : pod.status.phase = PodSucceeded ∨ pod.status.phase = PodFailed
  · left
    simp [executeCommandWithPod, hph]
  · by_cases hc : o.container = ""
    · cases hcont : pod.spec.containers with
      | nil =>
        left
        simp [executeCommandWithPod, hph, hc, hcont]
      | cons c0 rest =>
        rcases execStreamAndDecode_calls c { o with container := c0.name } cs with h | h
        · left
          simp only [executeCommandWithPod, hph, hc, hcont]
          simpa using h
        · right
          refine ⟨⟨c0.name, o.commands, false, true, true, false⟩, ?_⟩
          simp only [executeCommandWithPod, hph, hc, hcont]
          simpa using h
    · by_cases hany : (pod.spec.containers.any fun ct => ct.name = o.container) = true
      · rcases execStreamAndDecode_calls c o cs with h | h
        · left
          simp only [executeCommandWithPod, hph, hc, hany]
          simpa using h
        · right
          refine ⟨⟨o.container, o.commands, false, true, true, false⟩, ?_⟩
          simp only [executeCommandWithPod, hph, hc, hany]
          simpa using h
      · left
        simp [executeCommandWithPod, hph, hc, hany]

theorem executeCommandWithPod_optAfter (c : Cluster) (o : Opt) (pod : Pod) (cs : List Call) :
    (executeCommandWithPod c o pod cs).optAfter = o ∨
    (o.container = "" ∧ ∃ c0 rest, pod.spec.containers = c0 :: rest ∧
      (executeCommandWithPod c o pod cs).optAfter = { o with container := c0.name }) := by
  by_cases hph : pod.status.phase = PodSucceeded ∨ pod.status.phase = PodFailed
  · left
    simp [executeCommandWithPod, hph]
  · by_cases hc : o.container = ""
    · cases hcont : pod.spec.containers with
      | nil =>
        left
        simp [executeCommandWithPod, hph, hc, hcont]
      | cons c0 rest =>
        right
        refine ⟨hc, c0, rest, rfl, ?_⟩
        simp only [executeCommandWithPod, hph, hc, hcont]
        simpa using execStreamAndDecode_optAfter c { o with container := c0.name } cs
    · by_cases hany : (pod.spec.containers.any fun ct => ct.name = o.container) = true
      · left
        simp only [executeCommandWithPod, hph, hc, hany]
        simpa using execStreamAndDecode_optAfter c o cs
      · left
        simp [executeCommandWithPod, hph, hc, hany]

theorem executeCommand_eq_withPod (c : Cluster) (o : Opt) (d : Bool) (pod : Pod)
    (hpn : o.podName ≠ "") (hget : c.getPod (effNameSpace o) o.podName = .ok pod) :
    executeCommand c o d =
      executeCommandWithPod c { o with nameSpace := effNameSpace o } pod
        [Call.getPod (effNameSpace o) o.podName] := by
  simp [executeCommand, hpn, hget]

theorem executeCommand_eq_fetchError (c : Cluster) (o : Opt) (d : Bool) (e : String)
    (hpn : o.podName ≠ "") (hget : c.getPod (effNameSpace o) o.podName = .error e) :
    executeCommand c o d =
      if d ∧ e = s!"pods \x22{o.podName}\x22 not found" then
        ⟨.ok ⟨1, true, "", none⟩, [Call.getPod (effNameSpace o) o.podName],
          { o with nameSpace := effNameSpace o }⟩
      else
        ⟨.ok ⟨-1, false, e, none⟩, [Call.getPod (effNameSpace o) o.podName],
          { o with nameSpace := effNameSpace o }⟩ := by
  simp [executeCommand, hpn, hget]

theorem executeCommand_empty_podName_eq (c : Cluster) (o : Opt) (d : Bool) (h : o.podName = "") :
    executeCommand c o d =
      ⟨.ok ⟨-1, false, "can not execute command with empty pod name", none⟩, [], o⟩ := by
  simp [executeCommand, h]

theorem executeCommand_calls_nameSpace (c : Cluster) (o : Opt) (d : Bool) :
    ∀ call ∈ (executeCommand c o d).calls, call.nameSpace = effNameSpace o := by
  intro call hcall
  by_cases hpn : o.podName = ""
  · simp [executeCommand, hpn] at hcall
  · rcases hget : c.getPod (effNameSpace o) o.podName with e | pod
    · rw [executeCommand_eq_fetchError c o d e hpn hget] at hcall
      split at hcall <;> simp_all [Call.nameSpace]
    · rw [executeCommand_eq_withPod c o d pod hpn hget] at hcall
      rcases executeCommandWithPod_calls c { o with nameSpace := effNameSpace o } pod
          [Call.getPod (effNameSpace o) o.podName] with h | ⟨opts, h⟩
      · rw [h] at hcall
        simp only [List.mem_singleton] at hcall
        subst hcall
        rfl
      · rw [h] at hcall
        simp only [List.mem_append, List.mem_singleton] at hcall
        rcases hcall with hcall | hcall <;> rcases hcall with rfl <;> rfl
theorem executeCommand_optAfter (c : Cluster) (o : Opt) (d : Bool) :
    (executeCommand c o d).optAfter = o ∨
    (executeCommand c o d).optAfter = { o with nameSpace := effNameSpace o } ∨
    (o.container = "" ∧ ∃ pod c0 rest,
      c.getPod (effNameSpace o) o.podName = .ok pod ∧
      pod.spec.containers = c0 :: rest ∧
      (executeCommand c o d).optAfter = { o with nameSpace := effNameSpace o, container := c0.name }) := by
  by_cases hpn : o.podName = ""
  · left
    rw [executeCommand_empty_podName_eq c o d hpn]
  · rcases hget : c.getPod (effNameSpace o) o.podName with e | pod
    · right; left
      rw [executeCommand_eq_fetchError c o d e hpn hget]
      split <;> rfl
    · rw [executeCommand_eq_withPod c o d pod hpn hget]
      rcases executeCommandWithPod_optAfter c { o with nameSpace := effNameSpace o } pod
          [Call.getPod (effNameSpace o) o.podName] with h | ⟨hc, c0, rest, hcont, h⟩
      · right; left
        exact h
      · refine Or.inr (Or.inr ⟨by simpa using hc, pod, c0, rest, rfl, hcont, ?_⟩)
        rw [h]

/-- C1: for every Option and destroy flag, ExecuteCommand returns a
Response value for every error kind (connection to the pod fetch,
resolution, stream, decode); no error of those kinds is propagated to
the caller as a raw error, exception, or panic.  The hypothesis rules
out only the one exit that is not an error kind: the unguarded
`Containers[0]` access on a fetched pod with no containers (claim
C10). -/
theorem executeCommand_always_returns_response (c : Cluster) (o : Opt) (d : Bool)
    (h : ∀ pod, c.getPod (effNameSpace o) o.podName = .ok pod →
      o.container ≠ "" ∨ pod.spec.containers ≠ []) :
    ∃ r, (executeCommand c o d).outcome = .ok r := by
  by_cases hpn : o.podName = ""
  · refine ⟨⟨-1, false, "can not execute command with empty pod name", none⟩, ?_⟩
    simp [executeCommand, hpn]
  · rcases hget : c.getPod (effNameSpace o) o.podName with e | pod
    · rw [executeCommand_eq_fetchError c o d e hpn hget]
      split
      · exact ⟨⟨1, true, "", none⟩, rfl⟩
      · exact ⟨⟨-1, false, e, none⟩, rfl⟩
    · rw [executeCommand_eq_withPod c o d pod hpn hget]
      exact executeCommandWithPod_ok c _ pod _ (by simpa using h pod hget)

theorem executeCommand_always_returns_response_witness :
    (∀ pod, clusterDown.getPod (effNameSpace ⟨"", "mypod", "", ["ls"]⟩) "mypod" = .ok pod →
      (⟨"", "mypod", "", ["ls"]⟩ : Opt).container ≠ "" ∨ pod.spec.containers ≠ []) ∧
    ∃ r, (executeCommand clusterDown ⟨"", "mypod", "", ["ls"]⟩ false).outcome = .ok r :=
  ⟨fun pod hp => by simp [clusterDown] at hp,
   executeCommand_always_returns_response clusterDown ⟨"", "mypod", "", ["ls"]⟩ false
     (fun pod hp => by simp [clusterDown] at hp)⟩

/-- C2: for every request whose pod name is the empty string,
ExecuteCommand returns a failure Response with code -1, success false,
and the error string "can not execute command with empty pod name",
and performs no network call (the call trace is empty). -/
theorem executeCommand_empty_podName_response (c : Cluster) (o : Opt) (d : Bool)
    (h : o.podName = "") :
    executeCommand c o d =
      ⟨.ok ⟨-1, false, "can not execute command with empty pod name", none⟩, [], o⟩ := by
  simp [executeCommand, h]

theorem executeCommand_empty_podName_response_witness :
    (⟨"ns", "", "", []⟩ : Opt).podName = "" ∧
    executeCommand clusterDown ⟨"ns", "", "", []⟩ true =
      ⟨.ok ⟨-1, false, "can not execute command with empty pod name", none⟩, [],
        ⟨"ns", "", "", []⟩⟩ :=
  ⟨rfl, executeCommand_empty_podName_response clusterDown ⟨"ns", "", "", []⟩ true rfl⟩

/-- C3: for every request whose namespace field is the empty string and
whose pod name is non-empty, the namespace used for the pod fetch and
for the exec sub-resource request (every call in the trace) is exactly
"default". -/
theorem executeCommand_empty_nameSpace_uses_default (c : Cluster) (o : Opt) (d : Bool)
    (hns : o.nameSpace = "") (_hpn : o.podName ≠ "") :
    ∀ call ∈ (executeCommand c o d).calls, call.nameSpace = "default" := by
  intro call hcall
  have h := executeCommand_calls_nameSpace c o d call hcall
  rwa [effNameSpace, if_pos hns] at h

theorem executeCommand_empty_nameSpace_uses_default_witness :
    ((⟨"", "mypod", "", ["ls"]⟩ : Opt).nameSpace = "" ∧
      (⟨"", "mypod", "", ["ls"]⟩ : Opt).podName ≠ "") ∧
    ∀ call ∈ (executeCommand clusterUp ⟨"", "mypod", "", ["ls"]⟩ false).calls,
      call.nameSpace = "default" :=
  ⟨⟨rfl, by decide⟩,
   executeCommand_empty_nameSpace_uses_default clusterUp ⟨"", "mypod", "", ["ls"]⟩ false
     rfl (by decide)⟩

/-- C4: for every request (with a non-empty pod name) whose pod fetch
reports that the pod does not exist (the exact `pods "NAME" not found`
error): when destroyMode is true, ExecuteCommand returns a success
Response with code 1, success true, and no error; when destroyMode is
false, it returns a failure Response with code -1 and success false. -/
theorem executeCommand_pod_not_found (c : Cluster) (o : Opt)
    (hpn : o.podName ≠ "")
    (hget : c.getPod (effNameSpace o) o.podName = .error s!"pods \x22{o.podName}\x22 not found") :
    (executeCommand c o true).outcome = .ok ⟨1, true, "", none⟩ ∧
    (executeCommand c o false).outcome =
      .ok ⟨-1, false, s!"pods \x22{o.podName}\x22 not found", none⟩ := by
  constructor
  · rw [executeCommand_eq_fetchError c o true _ hpn hget, if_pos ⟨rfl, rfl⟩]
  · rw [executeCommand_eq_fetchError c o false _ hpn hget, if_neg (by simp)]

theorem executeCommand_pod_not_found_witness :
    ((⟨"ns", "mypod", "", ["ls"]⟩ : Opt).podName ≠ "" ∧
      clusterAbsent.getPod (effNameSpace ⟨"ns", "mypod", "", ["ls"]⟩) "mypod" =
        .error s!"pods \x22mypod\x22 not found") ∧
    (executeCommand clusterAbsent ⟨"ns", "mypod", "", ["ls"]⟩ true).outcome =
      .ok ⟨1, true, "", none⟩ ∧
    (executeCommand clusterAbsent ⟨"ns", "mypod", "", ["ls"]⟩ false).outcome =
      .ok ⟨-1, false, s!"pods \x22mypod\x22 not found", none⟩ :=
  ⟨⟨by decide, rfl⟩,
   executeCommand_pod_not_found clusterAbsent ⟨"ns", "mypod", "", ["ls"]⟩ (by decide) rfl⟩

/-- C5: for every request against a pod whose phase is terminal
(Succeeded or Failed), ExecuteCommand returns a failure Response with
code -1 and success false, regardless of the requested container and
destroy flag, and opens no exec stream (the trace holds only the pod
fetch). -/
theorem executeCommand_completed_pod_fails (c : Cluster) (o : Opt) (d : Bool) (pod : Pod)
    (hpn : o.podName ≠ "")
    (hget : c.getPod (effNameSpace o) o.podName = .ok pod)
    (hphase : pod.status.phase = PodSucceeded ∨ pod.status.phase = PodFailed) :
    (executeCommand c o d).outcome =
      .ok ⟨-1, false,
        s!"cannot exec into a container in a completed pod; current phase is {pod.status.phase}",
        none⟩ ∧
    (executeCommand c o d).calls = [Call.getPod (effNameSpace o) o.podName] := by
  rw [executeCommand_eq_withPod c o d pod hpn hget]
  constructor <;> simp [executeCommandWithPod, hphase]

theorem executeCommand_completed_pod_fails_witness :
    ((⟨"ns", "mypod", "bogus", ["ls"]⟩ : Opt).podName ≠ "" ∧
      clusterCompleted.getPod (effNameSpace ⟨"ns", "mypod", "bogus", ["ls"]⟩) "mypod" =
        .ok podSucceededW ∧
      (podSucceededW.status.phase = PodSucceeded ∨ podSucceededW.status.phase = PodFailed)) ∧
    (executeCommand clusterCompleted ⟨"ns", "mypod", "bogus", ["ls"]⟩ false).outcome =
      .ok ⟨-1, false,
        s!"cannot exec into a container in a completed pod; current phase is {podSucceededW.status.phase}",
        none⟩ ∧
    (executeCommand clusterCompleted ⟨"ns", "mypod", "bogus", ["ls"]⟩ false).calls =
      [Call.getPod (effNameSpace ⟨"ns", "mypod", "bogus", ["ls"]⟩) "mypod"] :=
  ⟨⟨by decide, rfl, by left; rfl⟩,
   executeCommand_completed_pod_fails clusterCompleted ⟨"ns", "mypod", "bogus", ["ls"]⟩ false
     podSucceededW (by decide) rfl (by left; rfl)⟩

/-- C6: for every request that names a container absent (by exact,
case-sensitive comparison) from the fetched pod's container names,
ExecuteCommand returns a failure Response whose error string names both
the requested container and the pod, and opens no exec stream (the
trace holds only the pod fetch). -/
theorem executeCommand_container_not_found (c : Cluster) (o : Opt) (d : Bool) (pod : Pod)
    (hpn : o.podName ≠ "")
    (hget : c.getPod (effNameSpace o) o.podName = .ok pod)
    (hphase : ¬(pod.status.phase = PodSucceeded ∨ pod.status.phase = PodFailed))
    (hc : o.container ≠ "")
    (habs : ∀ ct ∈ pod.spec.containers, ct.name ≠ o.container) :
    (executeCommand c o d).outcome =
      .ok ⟨-1, false, s!"container name: {o.container} not found in pod {o.podName}", none⟩ ∧
    (executeCommand c o d).calls = [Call.getPod (effNameSpace o) o.podName] := by
  rw [executeCommand_eq_withPod c o d pod hpn hget]
  have hany : (pod.spec.containers.any fun ct => ct.name = o.container) = false := by
    simp only [List.any_eq_false, decide_eq_true_eq]
    exact habs
  constructor <;> simp [executeCommandWithPod, hphase, hc, hany]

theorem executeCommand_container_not_found_witness :
    ((⟨"ns", "mypod", "Main", ["ls"]⟩ : Opt).podName ≠ "" ∧
      clusterUp.getPod (effNameSpace ⟨"ns", "mypod", "Main", ["ls"]⟩) "mypod" = .ok podRunning ∧
      ¬(podRunning.status.phase = PodSucceeded ∨ podRunning.status.phase = PodFailed) ∧
      (⟨"ns", "mypod", "Main", ["ls"]⟩ : Opt).container ≠ "" ∧
      (∀ ct ∈ podRunning.spec.containers, ct.name ≠ "Main")) ∧
    (executeCommand clusterUp ⟨"ns", "mypod", "Main", ["ls"]⟩ false).outcome =
      .ok ⟨-1, false, s!"container name: Main not found in pod mypod", none⟩ ∧
    (executeCommand clusterUp ⟨"ns", "mypod", "Main", ["ls"]⟩ false).calls =
      [Call.getPod (effNameSpace ⟨"ns", "mypod", "Main", ["ls"]⟩) "mypod"] :=
  ⟨⟨by decide, rfl, by decide, by decide, by decide⟩,
   executeCommand_container_not_found clusterUp ⟨"ns", "mypod", "Main", ["ls"]⟩ false
     podRunning (by decide) rfl (by decide) (by decide) (by decide)⟩

/-- C7 (counterexample): the round-trip claim is false as stated: the
valid serialized envelope of `respNullW` (whose result member is JSON
null, as Go's Marshal emits for a typed-nil Result) does not decode
back to `respNullW` — Unmarshal collapses the null result into the
absent one (a nil interface), losing the null/absent distinction. -/
theorem unmarshal_null_result_not_roundtrip :
    unmarshal (.json (marshalResponse respNullW)) ≠ .ok respNullW := by
  have h : unmarshal (.json (marshalResponse respNullW)) = .ok ⟨7, true, "ok", none⟩ := by
    simp [respNullW, marshalResponse, unmarshal, decodeResponse, lookupField,
      decodeCode, decodeSuccess, decodeErr, decodeResult, List.filter,
      Bind.bind, Except.bind]
  rw [h]
  simp [respNullW]

/-- C7 (amended): for every buffer that is exactly a valid serialized
Response envelope whose result member is not JSON null (the
marshalling of a Response whose code fits in int32 and whose result is
not the JSON null that decoding cannot distinguish from a nil
interface), decoding reproduces that envelope's fields exactly (code,
success, error, result) with no loss, and when the exec stream yields
exactly that buffer ExecuteCommand returns exactly the decoded
Response. -/
theorem executeCommand_envelope_roundtrip (c : Cluster) (o : Opt) (d : Bool)
    (pod : Pod) (r : Response)
    (hpn : o.podName ≠ "")
    (hget : c.getPod (effNameSpace o) o.podName = .ok pod)
    (hphase : ¬(pod.status.phase = PodSucceeded ∨ pod.status.phase = PodFailed))
    (hc : o.container ≠ "")
    (hmem : (pod.spec.containers.any fun ct => ct.name = o.container) = true)
    (hspdy : c.newSPDYExecutorErr = none)
    (hstream : c.streamOutput (effNameSpace o) o.podName
        ⟨o.container, o.commands, false, true, true, false⟩ = .ok (.json (marshalResponse r)))
    (hlo : -(2 ^ 31) ≤ r.code) (hhi : r.code < 2 ^ 31)
    (hres : r.result ≠ some Json.null) :
    unmarshal (.json (marshalResponse r)) = .ok r ∧
    (executeCommand c o d).outcome = .ok r := by
  have hdec : decodeResponse (marshalResponse r) = .ok r :=
    decodeResponse_marshalResponse r hlo hhi hres
  refine ⟨hdec, ?_⟩
  rw [executeCommand_eq_withPod c o d pod hpn hget]
  simp [executeCommandWithPod, hphase, hc, hmem, execStreamAndDecode, hspdy, hstream,
    unmarshal, hdec]

theorem executeCommand_envelope_roundtrip_witness :
    unmarshal (.json (marshalResponse respW)) = .ok respW ∧
    (executeCommand clusterEnvelope ⟨"ns", "mypod", "main", ["ls"]⟩ false).outcome = .ok respW :=
  executeCommand_envelope_roundtrip clusterEnvelope ⟨"ns", "mypod", "main", ["ls"]⟩ false
    podRunning respW (by decide) rfl (by decide) (by decide) (by decide) rfl rfl
    (by decide) (by decide) (by simp [respW])

/-- C8: for every collected buffer that fails to deserialize as a
Response envelope, ExecuteCommand returns a failure Response with code
-1 and success false whose error string carries the decode error detail
together with the raw text; the result payload of the returned Response
is empty, so the raw output is never passed through as the result. -/
theorem executeCommand_decode_failure (c : Cluster) (o : Opt) (d : Bool) (pod : Pod)
    (buf : Buffer) (e : String)
    (hpn : o.podName ≠ "")
    (hget : c.getPod (effNameSpace o) o.podName = .ok pod)
    (hphase : ¬(pod.status.phase = PodSucceeded ∨ pod.status.phase = PodFailed))
    (hc : o.container ≠ "")
    (hmem : (pod.spec.containers.any fun ct => ct.name = o.container) = true)
    (hspdy : c.newSPDYExecutorErr = none)
    (hstream : c.streamOutput (effNameSpace o) o.podName
        ⟨o.container, o.commands, false, true, true, false⟩ = .ok buf)
    (hdec : unmarshal buf = .error e) :
    (executeCommand c o d).outcome =
      .ok ⟨-1, false, s!"unmarsh json {buf.raw} got error: {e}", none⟩ := by
  rw [executeCommand_eq_withPod c o d pod hpn hget]
  simp [executeCommandWithPod, hphase, hc, hmem, execStreamAndDecode, hspdy, hstream, hdec]

theorem executeCommand_decode_failure_witness :
    (executeCommand clusterUp ⟨"ns", "mypod", "main", ["ls"]⟩ false).outcome =
      .ok ⟨-1, false,
        "unmarsh json hello got error: invalid character looking for beginning of value",
        none⟩ :=
  executeCommand_decode_failure clusterUp ⟨"ns", "mypod", "main", ["ls"]⟩ false
    podRunning (.malformed "hello") "invalid character looking for beginning of value"
    (by decide) rfl (by decide) (by decide) (by decide) rfl rfl rfl

/-- C9 (counterexample): ExecuteCommand does mutate the caller-owned
Option through the `opt *Option` pointer: with an empty namespace
field, after the call the caller's namespace field reads "default",
not its value before the call, so defaulting is not applied to a local
copy. -/
theorem executeCommand_mutates_caller_option :
    (executeCommand clusterDown ⟨"", "mypod", "", ["ls"]⟩ false).optAfter.nameSpace ≠
      (⟨"", "mypod", "", ["ls"]⟩ : Opt).nameSpace := by
  decide

/-- C9 (amended): ExecuteCommand applies defaulting to the caller-owned
Option in place: after the call the pod name and commands fields are
unchanged; the namespace field is unchanged unless it was empty, in
which case it reads "default"; the container field is unchanged unless
it was empty and a pod was fetched, in which case it reads the fetched
pod's first declared container name. -/
theorem executeCommand_optAfter_fields (c : Cluster) (o : Opt) (d : Bool) :
    (executeCommand c o d).optAfter.podName = o.podName ∧
    (executeCommand c o d).optAfter.commands = o.commands ∧
    ((executeCommand c o d).optAfter.nameSpace = o.nameSpace ∨
      (o.nameSpace = "" ∧ (executeCommand c o d).optAfter.nameSpace = "default")) ∧
    ((executeCommand c o d).optAfter.container = o.container ∨
      (o.container = "" ∧ ∃ pod c0 rest,
        c.getPod (effNameSpace o) o.podName = .ok pod ∧
        pod.spec.containers = c0 :: rest ∧
        (executeCommand c o d).optAfter.container = c0.name)) := by
  rcases executeCommand_optAfter c o d with h | h | ⟨hc, pod, c0, rest, hget, hcont, h⟩
  · rw [h]
    exact ⟨rfl, rfl, .inl rfl, .inl rfl⟩
  · rw [h]
    refine ⟨rfl, rfl, ?_, .inl rfl⟩
    by_cases hns : o.nameSpace = ""
    · exact .inr ⟨hns, by simp [effNameSpace, hns]⟩
    · exact .inl (by simp [effNameSpace, hns])
  · rw [h]
    refine ⟨rfl, rfl, ?_, .inr ⟨hc, pod, c0, rest, hget, hcont, rfl⟩⟩
    by_cases hns : o.nameSpace = ""
    · exact .inr ⟨hns, by simp [effNameSpace, hns]⟩
    · exact .inl (by simp [effNameSpace, hns])

/-- C10: when the request names no container, ExecuteCommand selects
the fetched pod's first declared container by unchecked index: for a
fetched pod whose container list is empty the access is out of bounds
and the call panics, and for a non-empty list the call returns a
Response, so the defaulting branch is safe only under the precondition
that the pod declares at least one container. -/
theorem executeCommand_empty_containers_panics (c : Cluster) (o : Opt) (d : Bool) (pod : Pod)
    (hpn : o.podName ≠ "")
    (hget : c.getPod (effNameSpace o) o.podName = .ok pod)
    (hphase : ¬(pod.status.phase = PodSucceeded ∨ pod.status.phase = PodFailed))
    (hc : o.container = "") :
    (pod.spec.containers = [] →
      (executeCommand c o d).outcome =
        .panicked "runtime error: index out of range [0] with length 0") ∧
    (pod.spec.containers ≠ [] →
      ∃ r, (executeCommand c o d).outcome = .ok r) := by
  rw [executeCommand_eq_withPod c o d pod hpn hget]
  constructor
  · intro hnil
    simp [executeCommandWithPod, hphase, hc, hnil]
  · intro hne
    exact executeCommandWithPod_ok c _ pod _ (.inr hne)

theorem executeCommand_empty_containers_panics_witness :
    (podNoContainers.spec.containers = [] →
      (executeCommand clusterNoContainers ⟨"ns", "mypod", "", ["ls"]⟩ false).outcome =
        .panicked "runtime error: index out of range [0] with length 0") ∧
    (podNoContainers.spec.containers ≠ [] →
      ∃ r, (executeCommand clusterNoContainers ⟨"ns", "mypod", "", ["ls"]⟩ false).outcome =
        .ok r) :=
  executeCommand_empty_containers_panics clusterNoContainers ⟨"ns", "mypod", "", ["ls"]⟩ false
    podNoContainers (by decide) rfl (by decide) rfl

end pkg
